import Mathlib

/-!
Verification development for two extension modules of an inference engine:

* the `ConvertLayout` graph-rewrite passes of the ARM plugin
  (`convert_layout.hpp` / `convert_layout.cpp`), which insert
  layout-transposition nodes around convolution and pooling operators, and
* the `Mod` element-wise CUDA kernel dispatcher (`mod.hpp`).

The C++ graph edits are embedded shallowly: replacement subgraphs are pure
expression trees, a matcher-pass callback is a pure function from the matched
node (plus the `transformation_callback` predicate) to a result that is either
a rejection (the callback returns `false` and the graph is untouched), a
rewrite carrying the replacement outputs with their friendly names, or a
thrown exception.
-/

set_option maxHeartbeats 1000000

namespace ArmPlugin
namespace pass

/-- One dimension of a `PartialShape`: a static extent (`some n`) or a
dynamic dimension (`none`).  The passes only require a static rank. -/
abbrev Dim := Option Nat

/-- Embeds `ov::op::PadType` (the `auto_pad` attribute). -/
inductive PadType where
  | explicitPad
  | sameLower
  | sameUpper
  | validPad
  | autoPad
  | notset
deriving DecidableEq, Repr

/-- Embeds `ov::op::RoundingType` (the `rounding_type` attribute of pooling ops). -/
inductive RoundingType where
  | floorMode
  | ceilMode
deriving DecidableEq, Repr

/-- The element type carried by MaxPool-v8's `index_element_type` attribute. -/
inductive ElemType where
  | i32
  | i64
deriving DecidableEq, Repr

/-- Embeds `static std::vector<int> nchw_to_nhwc{0, 2, 3, 1};`
(the C++ vector holds `int`s, but every entry is a non-negative index). -/
def nchw_to_nhwc : List Nat := [0, 2, 3, 1]

/-- Embeds `static std::vector<int> nhwc_to_nchw{0, 3, 1, 2};` -/
def nhwc_to_nchw : List Nat := [0, 3, 1, 2]

/-- Embeds `static std::vector<int> ncdhw_to_ndhwc{0, 2, 3, 4, 1};` -/
def ncdhw_to_ndhwc : List Nat := [0, 2, 3, 4, 1]

/-- Embeds `static std::vector<int> ndhwc_to_ncdhw{0, 4, 1, 2, 3};` -/
def ndhwc_to_ncdhw : List Nat := [0, 4, 1, 2, 3]

/-- Graph expressions: the output values appearing in the rewritten subgraphs.
`value i` stands for an arbitrary pre-existing upstream `Output<Node>`
(the `input_value(i)` of the matched node); the remaining constructors are the
nodes the passes build.  A `transpose` carries the permutation constant the
pass creates for it.  `armMaxPoolV8Out` is `output(port)` of a two-output
`v8::ArmMaxPool` node. -/
inductive Expr where
  | value (id : Nat)
  | transpose (input : Expr) (perm : List Nat)
  | armConvolution (activations weights : Expr) (bias : Option Expr)
      (strides pads_begin pads_end dilations : List Nat)
      (auto_pad : PadType) (out_shape : List Dim)
  | armMaxPoolV1 (input : Expr)
      (strides pads_begin pads_end kernel : List Nat)
      (rounding_type : RoundingType) (auto_pad : PadType) (out_shape : List Dim)
  | armMaxPoolV8Out (input : Expr)
      (strides dilations pads_begin pads_end kernel : List Nat)
      (rounding_type : RoundingType) (auto_pad : PadType)
      (index_element_type : ElemType) (axis : Int)
      (out_shape : List Dim) (port : Nat)
  | armAvgPool (input : Expr)
      (strides pads_begin pads_end kernel : List Nat)
      (exclude_pad : Bool) (rounding_type : RoundingType) (auto_pad : PadType)
      (out_shape : List Dim)

/-- The matched `opset::ArmConvolution` node: its input values, attributes,
output-0 shape and friendly name. -/
structure ConvNode where
  inputs : List Expr
  strides : List Nat
  pads_begin : List Nat
  pads_end : List Nat
  dilations : List Nat
  auto_pad : PadType
  out_shape : List Dim
  friendly_name : String

/-- The matched `opset::v1::ArmMaxPool` node. -/
structure MaxPoolV1Node where
  input0 : Expr
  strides : List Nat
  pads_begin : List Nat
  pads_end : List Nat
  kernel : List Nat
  rounding_type : RoundingType
  auto_pad : PadType
  out_shape : List Dim
  friendly_name : String

/-- The matched `opset::v8::ArmMaxPool` node (`out_shape` is output 0's). -/
structure MaxPoolV8Node where
  input0 : Expr
  strides : List Nat
  dilations : List Nat
  pads_begin : List Nat
  pads_end : List Nat
  kernel : List Nat
  rounding_type : RoundingType
  auto_pad : PadType
  index_element_type : ElemType
  axis : Int
  out_shape : List Dim
  friendly_name : String

/-- The matched `opset::v1::ArmAvgPool` node. -/
structure AvgPoolNode where
  input0 : Expr
  strides : List Nat
  pads_begin : List Nat
  pads_end : List Nat
  kernel : List Nat
  exclude_pad : Bool
  rounding_type : RoundingType
  auto_pad : PadType
  out_shape : List Dim
  friendly_name : String

/-- The node handed to a callback by `m.get_match_root()`.  The wrap_type
pattern guarantees the kind in practice, but each callback re-checks it with
`ov::as_type_ptr`, so the embedding keeps the general type. -/
inductive MatchedNode where
  | convNode (c : ConvNode)
  | maxPoolV1Node (p : MaxPoolV1Node)
  | maxPoolV8Node (p : MaxPoolV8Node)
  | avgPoolNode (p : AvgPoolNode)
  | otherNode (id : Nat)

/-- Embeds `ov::as_type_ptr<opset::ArmConvolution>(node)`. -/
def as_arm_convolution : MatchedNode → Option ConvNode
  | .convNode c => some c
  | _ => none

/-- Embeds `ov::as_type_ptr<opset::v1::ArmMaxPool>(node)`. -/
def as_arm_maxpool_v1 : MatchedNode → Option MaxPoolV1Node
  | .maxPoolV1Node p => some p
  | _ => none

/-- Embeds `ov::as_type_ptr<opset::v8::ArmMaxPool>(node)`. -/
def as_arm_maxpool_v8 : MatchedNode → Option MaxPoolV8Node
  | .maxPoolV8Node p => some p
  | _ => none

/-- Embeds `ov::as_type_ptr<opset::v1::ArmAvgPool>(node)`. -/
def as_arm_avgpool : MatchedNode → Option AvgPoolNode
  | .avgPoolNode p => some p
  | _ => none

/-- Outcome of one matcher-pass callback invocation.  `rejected` is
`return false` (no graph modification); `rewritten outs` is `return true`
after `replace_node`, where `outs` lists the replacement output expressions
paired with the friendly name set on each; `threw` is an escaping
`IE_THROW()`. -/
inductive CallbackResult where
  | rejected
  | rewritten (outputs : List (Expr × String))
  | threw (msg : String)

/-- Embeds `transpose_on_input`: wrap `input` in a Transpose to channel-last, by the
rank of the surrounding op; other ranks hit
`IE_THROW() << "ConvertLayout: unsupported rank"`. -/
def transpose_on_input (input : Expr) (rank : Nat) : Except String Expr :=
  match rank with
  | 4 => .ok (.transpose input nchw_to_nhwc)
  | 5 => .ok (.transpose input ncdhw_to_ndhwc)
  | _ => .error "ConvertLayout: unsupported rank"

/-- Embeds `transpose_on_output`: wrap `input` in a Transpose back to channel-first. -/
def transpose_on_output (input : Expr) (rank : Nat) : Except String Expr :=
  match rank with
  | 4 => .ok (.transpose input nhwc_to_nchw)
  | 5 => .ok (.transpose input ndhwc_to_ncdhw)
  | _ => .error "ConvertLayout: unsupported rank"

/-- Embeds `transpose_output_shape(node, rank)` over the output-0 shape of
the node: dimension `i` of the result is `shape[perm[i]]`, where `perm` is
`rank == 4 ? nchw_to_nhwc : ncdhw_to_ndhwc`. -/
def transpose_output_shape (shape : List Dim) (rank : Nat) : List Dim :=
  let perm := if rank == 4 then nchw_to_nhwc else ncdhw_to_ndhwc
  (List.range rank).map fun i => shape.getD (perm.getD i 0) none

/-- Placeholder `Output<Node>` used for out-of-range `input_value` accesses;
never reached on well-formed nodes (a convolution has at least two inputs). -/
def nullOutput : Expr := .value 0

/-- The callback registered by `ConvertArmConvolutionLayout`.  `tc` is the
host-supplied `transformation_callback`. -/
def convertArmConvolutionLayoutCallback (tc : MatchedNode → Bool)
    (node : MatchedNode) : CallbackResult :=
  if tc node then .rejected
  else
    match as_arm_convolution node with
    | none => .rejected
    | some conv =>
      let rank := conv.out_shape.length
      if rank < 4 ∨ 5 < rank then .rejected
      else
        match transpose_on_input (conv.inputs.getD 0 nullOutput) rank with
        | .error e => .threw e
        | .ok activations_transpose =>
          match transpose_on_input (conv.inputs.getD 1 nullOutput) rank with
          | .error e => .threw e
          | .ok weights_transpose =>
            let output_shape := transpose_output_shape conv.out_shape rank
            let new_conv : Expr :=
              if 2 < conv.inputs.length then
                .armConvolution activations_transpose weights_transpose
                  (some (conv.inputs.getD 2 nullOutput))
                  conv.strides conv.pads_begin conv.pads_end conv.dilations
                  conv.auto_pad output_shape
              else
                .armConvolution activations_transpose weights_transpose none
                  conv.strides conv.pads_begin conv.pads_end conv.dilations
                  conv.auto_pad output_shape
            match transpose_on_output new_conv rank with
            | .error e => .threw e
            | .ok t => .rewritten [(t, conv.friendly_name)]

/-- The callback registered by `ConvertArmMaxPoolV1Layout`. -/
def convertArmMaxPoolV1LayoutCallback (tc : MatchedNode → Bool)
    (node : MatchedNode) : CallbackResult :=
  if tc node then .rejected
  else
    match as_arm_maxpool_v1 node with
    | none => .rejected
    | some pool =>
      let rank := pool.out_shape.length
      if rank < 4 ∨ 5 < rank then .rejected
      else
        match transpose_on_input pool.input0 rank with
        | .error e => .threw e
        | .ok activations_transpose =>
          let output_shape := transpose_output_shape pool.out_shape rank
          let new_pool : Expr :=
            .armMaxPoolV1 activations_transpose
              pool.strides pool.pads_begin pool.pads_end pool.kernel
              pool.rounding_type pool.auto_pad output_shape
          match transpose_on_output new_pool rank with
          | .error e => .threw e
          | .ok t => .rewritten [(t, pool.friendly_name)]

/-- The callback registered by `ConvertArmMaxPoolV8Layout` (the only one with
an additional `axis` guard, and the only one replacing two outputs). -/
def convertArmMaxPoolV8LayoutCallback (tc : MatchedNode → Bool)
    (node : MatchedNode) : CallbackResult :=
  if tc node then .rejected
  else
    match as_arm_maxpool_v8 node with
    | none => .rejected
    | some pool =>
      let rank := pool.out_shape.length
      if rank < 4 ∨ 5 < rank then .rejected
      else
        if 1 < pool.axis ∨ (pool.axis < 0 ∧ -(rank : Int) - 1 < pool.axis) then
          .rejected
        else
          match transpose_on_input pool.input0 rank with
          | .error e => .threw e
          | .ok activations_transpose =>
            let output_shape := transpose_output_shape pool.out_shape rank
            let mkOut (port : Nat) : Expr :=
              .armMaxPoolV8Out activations_transpose
                pool.strides pool.dilations pool.pads_begin pool.pads_end
                pool.kernel pool.rounding_type pool.auto_pad
                pool.index_element_type pool.axis output_shape port
            match transpose_on_output (mkOut 0) rank with
            | .error e => .threw e
            | .ok t0 =>
              match transpose_on_output (mkOut 1) rank with
              | .error e => .threw e
              | .ok t1 =>
                .rewritten [(t0, pool.friendly_name ++ ".0"),
                            (t1, pool.friendly_name ++ ".1")]

/-- The callback registered by `ConvertArmAvgPoolLayout`. -/
def convertArmAvgPoolLayoutCallback (tc : MatchedNode → Bool)
    (node : MatchedNode) : CallbackResult :=
  if tc node then .rejected
  else
    match as_arm_avgpool node with
    | none => .rejected
    | some pool =>
      let rank := pool.out_shape.length
      if rank < 4 ∨ 5 < rank then .rejected
      else
        match transpose_on_input pool.input0 rank with
        | .error e => .threw e
        | .ok activations_transpose =>
          let output_shape := transpose_output_shape pool.out_shape rank
          let new_pool : Expr :=
            .armAvgPool activations_transpose
              pool.strides pool.pads_begin pool.pads_end pool.kernel
              pool.exclude_pad pool.rounding_type pool.auto_pad output_shape
          match transpose_on_output new_pool rank with
          | .error e => .threw e
          | .ok t => .rewritten [(t, pool.friendly_name)]

end pass
end ArmPlugin

namespace CUDAPlugin
namespace kernel

/-- Modelled from the spec: the element operation of the Mod kernel
("a 'modulo' tensor operation").  `ModOpImpl` is only forward-declared in
`mod.hpp`; its definition (in the missing `mod.cu`) is modelled as the
C-family truncated remainder of the operator's semantics, here on `Int`
(the embedding collapses the `AllElementTypesSwitch` element-type dispatch
to a single integer element domain). -/
def modOpImpl (a b : Int) : Int := Int.tmod a b

/-- Row-major coordinates of flat index `i` in a tensor of shape `shape`. -/
def unflattenIdx : List Nat → Nat → List Nat
  | [], _ => []
  | _ :: ds, i => i / ds.prod :: unflattenIdx ds (i % ds.prod)

/-- Row-major flat index of coordinate list `coords` in shape `shape`. -/
def flattenIdx : List Nat → List Nat → Nat
  | [], _ => 0
  | _ :: _, [] => 0
  | _ :: ds, c :: cs => c * ds.prod + flattenIdx ds cs

/-- Modelled from the spec: `NumpyBroadcastMapper` ("applying numpy
broadcasting if needed"), whose definition is not part of the source.  It
maps a flat index of the output tensor to the flat index of the input
element feeding it: along every input dimension of extent 1 the coordinate
is clamped to 0 (the numpy broadcast rule); `in_shape` is the input shape
already padded to the output rank. -/
def numpyBroadcastMapper (out_shape in_shape : List Nat) (i : Nat) : Nat :=
  flattenIdx in_shape
    (List.zipWith (fun d c => if d = 1 then 0 else c) in_shape
      (unflattenIdx out_shape i))

/-- Modelled from the spec: the generic element-wise binary dispatcher
`ElementwiseBinary` ("a thin generic-dispatch wrapper over broadcasting
arithmetic"; `elementwise_binary.cuh` is not part of the source).  For each
output element index it applies `op` to the two input elements selected
through the two mappers.  Device memory is modelled as index-to-value
functions and the written output as the list of `out_num` produced values;
`max_threads_per_block` only shapes the launch grid and has no effect on
the values, so it is dropped. -/
def elementwiseBinary (op : Int → Int → Int) (out_num : Nat)
    (in0 : Nat → Int) (in0_mapper : Nat → Nat)
    (in1 : Nat → Int) (in1_mapper : Nat → Nat) : List Int :=
  (List.range out_num).map fun i => op (in0 (in0_mapper i)) (in1 (in1_mapper i))

/-- The `Mod` kernel object of `mod.hpp`: it stores nothing but its
`ElementwiseBinary<AllElementTypesSwitch, ModOpImpl>` member `impl_`
(whose value-relevant constructor state is `out_num_elements`). -/
structure Mod where
  out_num_elements : Nat

/-- Embeds `Mod::operator()`: delegate to `impl_`, i.e. to the generic dispatcher
instantiated with `ModOpImpl`. -/
def Mod.call (k : Mod) (in0 : Nat → Int) (in0_mapper : Nat → Nat)
    (in1 : Nat → Int) (in1_mapper : Nat → Nat) : List Int :=
  elementwiseBinary modOpImpl k.out_num_elements in0 in0_mapper in1 in1_mapper

/-- Written from the spec's words, independently of the dispatcher: the
element-wise modulo of the two (mapper-selected) inputs, one value per
output element.  Used as the specification side of the refinement claim. -/
def modSpec (out_num : Nat) (in0 : Nat → Int) (in0_mapper : Nat → Nat)
    (in1 : Nat → Int) (in1_mapper : Nat → Nat) : List Int :=
  (List.range out_num).map fun i =>
    Int.tmod (in0 (in0_mapper i)) (in1 (in1_mapper i))

end kernel
end CUDAPlugin

namespace ArmPlugin
namespace pass

/-- Semantics of the host's Transpose operator on a shape (the
"layout-transposition nodes" of the spec; the operator itself belongs to the
host framework): dimension `i` of the result is `s[perm[i]]`. -/
def applyPerm (perm : List Nat) (s : List Dim) : List Dim :=
  perm.map fun i => s.getD i none

/-- The permutation of a Transpose with permutation `p` followed by one with
permutation `q`: entry `i` is `p[q[i]]`, so that
`applyPerm q (applyPerm p s) = applyPerm (composePerm p q) s`. -/
def composePerm (p q : List Nat) : List Nat := q.map fun i => p.getD i 0

theorem rotate_one_perm {α : Type} (a : α) (l : List α) :
    List.Perm (l ++ [a]) (a :: l) :=
  List.perm_append_comm

/-- The input-side permutation chosen for a supported rank. -/
def perm_in (rank : Nat) : List Nat :=
  if rank == 4 then nchw_to_nhwc else ncdhw_to_ndhwc

/-- The output-side permutation chosen for a supported rank. -/
def perm_out (rank : Nat) : List Nat :=
  if rank == 4 then nhwc_to_nchw else ndhwc_to_ncdhw

/-- The replacement subgraph built by the convolution pass. -/
def convReplacement (c : ConvNode) : List (Expr × String) :=
  [(Expr.transpose
      (Expr.armConvolution
        (Expr.transpose (c.inputs.getD 0 nullOutput) (perm_in c.out_shape.length))
        (Expr.transpose (c.inputs.getD 1 nullOutput) (perm_in c.out_shape.length))
        (if 2 < c.inputs.length then some (c.inputs.getD 2 nullOutput) else none)
        c.strides c.pads_begin c.pads_end c.dilations c.auto_pad
        (transpose_output_shape c.out_shape c.out_shape.length))
      (perm_out c.out_shape.length),
    c.friendly_name)]

theorem convCallback_rewrites (tc : MatchedNode → Bool) (c : ConvNode)
    (htc : tc (.convNode c) = false)
    (h45 : c.out_shape.length = 4 ∨ c.out_shape.length = 5) :
    convertArmConvolutionLayoutCallback tc (.convNode c) =
      .rewritten (convReplacement c) := by
  by_cases hb : 2 < c.inputs.length <;>
    rcases h45 with h | h <;>
      simp [convertArmConvolutionLayoutCallback, as_arm_convolution, htc, h,
        hb, transpose_on_input, transpose_on_output, perm_in, perm_out,
        convReplacement]

theorem convCallback_rejected_of_tc (tc : MatchedNode → Bool)
    (m : MatchedNode) (h : tc m = true) :
    convertArmConvolutionLayoutCallback tc m = .rejected := by
  simp [convertArmConvolutionLayoutCallback, h]

theorem convCallback_rejected_of_cast (tc : MatchedNode → Bool)
    (m : MatchedNode) (h : as_arm_convolution m = none) :
    convertArmConvolutionLayoutCallback tc m = .rejected := by
  by_cases htc : tc m <;>
    simp [convertArmConvolutionLayoutCallback, htc, h]

theorem convCallback_rejected_of_rank (tc : MatchedNode → Bool) (c : ConvNode)
    (h : c.out_shape.length < 4 ∨ 5 < c.out_shape.length) :
    convertArmConvolutionLayoutCallback tc (.convNode c) = .rejected := by
  by_cases htc : tc (.convNode c) <;>
    simp [convertArmConvolutionLayoutCallback, as_arm_convolution, htc, h]

theorem convCallback_result_shape (tc : MatchedNode → Bool) (m : MatchedNode) :
    convertArmConvolutionLayoutCallback tc m = .rejected ∨
    ∃ c : ConvNode, m = .convNode c ∧ tc m = false ∧
      (c.out_shape.length = 4 ∨ c.out_shape.length = 5) ∧
      convertArmConvolutionLayoutCallback tc m = .rewritten (convReplacement c) := by
  by_cases htc : tc m
  · exact Or.inl (convCallback_rejected_of_tc tc m htc)
  · have htc' : tc m = false := by simpa using htc
    cases m with
    | convNode c =>
      by_cases h45 : c.out_shape.length < 4 ∨ 5 < c.out_shape.length
      · exact Or.inl (convCallback_rejected_of_rank tc c h45)
      · push_neg at h45
        have h4 : c.out_shape.length = 4 ∨ c.out_shape.length = 5 := by omega
        exact Or.inr ⟨c, rfl, htc', h4, convCallback_rewrites tc c htc' h4⟩
    | maxPoolV1Node p =>
      exact Or.inl (convCallback_rejected_of_cast tc _ rfl)
    | maxPoolV8Node p =>
      exact Or.inl (convCallback_rejected_of_cast tc _ rfl)
    | avgPoolNode p =>
      exact Or.inl (convCallback_rejected_of_cast tc _ rfl)
    | otherNode i =>
      exact Or.inl (convCallback_rejected_of_cast tc _ rfl)

/-- The replacement subgraph built by the MaxPool-v1 pass. -/
def maxPoolV1Replacement (p : MaxPoolV1Node) : List (Expr × String) :=
  [(Expr.transpose
      (Expr.armMaxPoolV1
        (Expr.transpose p.input0 (perm_in p.out_shape.length))
        p.strides p.pads_begin p.pads_end p.kernel
        p.rounding_type p.auto_pad
        (transpose_output_shape p.out_shape p.out_shape.length))
      (perm_out p.out_shape.length),
    p.friendly_name)]

theorem maxPoolV1Callback_rewrites (tc : MatchedNode → Bool) (p : MaxPoolV1Node)
    (htc : tc (.maxPoolV1Node p) = false)
    (h45 : p.out_shape.length = 4 ∨ p.out_shape.length = 5) :
    convertArmMaxPoolV1LayoutCallback tc (.maxPoolV1Node p) =
      .rewritten (maxPoolV1Replacement p) := by
  rcases h45 with h | h <;>
    simp [convertArmMaxPoolV1LayoutCallback, as_arm_maxpool_v1, htc, h,
      transpose_on_input, transpose_on_output, perm_in, perm_out,
      maxPoolV1Replacement]

theorem maxPoolV1Callback_rejected_of_tc (tc : MatchedNode → Bool)
    (m : MatchedNode) (h : tc m = true) :
    convertArmMaxPoolV1LayoutCallback tc m = .rejected := by
  simp [convertArmMaxPoolV1LayoutCallback, h]

theorem maxPoolV1Callback_rejected_of_cast (tc : MatchedNode → Bool)
    (m : MatchedNode) (h : as_arm_maxpool_v1 m = none) :
    convertArmMaxPoolV1LayoutCallback tc m = .rejected := by
  by_cases htc : tc m <;>
    simp [convertArmMaxPoolV1LayoutCallback, htc, h]

theorem maxPoolV1Callback_rejected_of_rank (tc : MatchedNode → Bool)
    (p : MaxPoolV1Node)
    (h : p.out_shape.length < 4 ∨ 5 < p.out_shape.length) :
    convertArmMaxPoolV1LayoutCallback tc (.maxPoolV1Node p) = .rejected := by
  by_cases htc : tc (.maxPoolV1Node p) <;>
    simp [convertArmMaxPoolV1LayoutCallback, as_arm_maxpool_v1, htc, h]

theorem maxPoolV1Callback_result_shape (tc : MatchedNode → Bool)
    (m : MatchedNode) :
    convertArmMaxPoolV1LayoutCallback tc m = .rejected ∨
    ∃ p : MaxPoolV1Node, m = .maxPoolV1Node p ∧ tc m = false ∧
      (p.out_shape.length = 4 ∨ p.out_shape.length = 5) ∧
      convertArmMaxPoolV1LayoutCallback tc m =
        .rewritten (maxPoolV1Replacement p) := by
  by_cases htc : tc m
  · exact Or.inl (maxPoolV1Callback_rejected_of_tc tc m htc)
  · have htc' : tc m = false := by simpa using htc
    cases m with
    | maxPoolV1Node p =>
      by_cases h45 : p.out_shape.length < 4 ∨ 5 < p.out_shape.length
      · exact Or.inl (maxPoolV1Callback_rejected_of_rank tc p h45)
      · push_neg at h45
        have h4 : p.out_shape.length = 4 ∨ p.out_shape.length = 5 := by omega
        exact Or.inr ⟨p, rfl, htc', h4, maxPoolV1Callback_rewrites tc p htc' h4⟩
    | convNode c => exact Or.inl (maxPoolV1Callback_rejected_of_cast tc _ rfl)
    | maxPoolV8Node p => exact Or.inl (maxPoolV1Callback_rejected_of_cast tc _ rfl)
    | avgPoolNode p => exact Or.inl (maxPoolV1Callback_rejected_of_cast tc _ rfl)
    | otherNode i => exact Or.inl (maxPoolV1Callback_rejected_of_cast tc _ rfl)

/-- The guard condition on the `axis` attribute of a matched MaxPool-v8. -/
def axisGuard (axis : Int) (rank : Nat) : Prop :=
  1 < axis ∨ (axis < 0 ∧ -(rank : Int) - 1 < axis)

instance (axis : Int) (rank : Nat) : Decidable (axisGuard axis rank) := by
  unfold axisGuard
  infer_instance

/-- The replacement subgraph built by the MaxPool-v8 pass: one output
transpose per pool output, named `<friendly_name>.0` and `<friendly_name>.1`. -/
def maxPoolV8Replacement (p : MaxPoolV8Node) : List (Expr × String) :=
  [(Expr.transpose
      (Expr.armMaxPoolV8Out
        (Expr.transpose p.input0 (perm_in p.out_shape.length))
        p.strides p.dilations p.pads_begin p.pads_end p.kernel
        p.rounding_type p.auto_pad p.index_element_type p.axis
        (transpose_output_shape p.out_shape p.out_shape.length) 0)
      (perm_out p.out_shape.length),
    p.friendly_name ++ ".0"),
   (Expr.transpose
      (Expr.armMaxPoolV8Out
        (Expr.transpose p.input0 (perm_in p.out_shape.length))
        p.strides p.dilations p.pads_begin p.pads_end p.kernel
        p.rounding_type p.auto_pad p.index_element_type p.axis
        (transpose_output_shape p.out_shape p.out_shape.length) 1)
      (perm_out p.out_shape.length),
    p.friendly_name ++ ".1")]

theorem maxPoolV8Callback_rewrites (tc : MatchedNode → Bool) (p : MaxPoolV8Node)
    (htc : tc (.maxPoolV8Node p) = false)
    (h45 : p.out_shape.length = 4 ∨ p.out_shape.length = 5)
    (hax : ¬ axisGuard p.axis p.out_shape.length) :
    convertArmMaxPoolV8LayoutCallback tc (.maxPoolV8Node p) =
      .rewritten (maxPoolV8Replacement p) := by
  unfold axisGuard at hax
  rcases h45 with h | h <;> rw [h] at hax <;>
    simp [convertArmMaxPoolV8LayoutCallback, as_arm_maxpool_v8, htc, h, hax,
      transpose_on_input, transpose_on_output, perm_in, perm_out,
      maxPoolV8Replacement] <;>
    push_neg at hax <;> omega

theorem maxPoolV8Callback_rejected_of_tc (tc : MatchedNode → Bool)
    (m : MatchedNode) (h : tc m = true) :
    convertArmMaxPoolV8LayoutCallback tc m = .rejected := by
  simp [convertArmMaxPoolV8LayoutCallback, h]

theorem maxPoolV8Callback_rejected_of_cast (tc : MatchedNode → Bool)
    (m : MatchedNode) (h : as_arm_maxpool_v8 m = none) :
    convertArmMaxPoolV8LayoutCallback tc m = .rejected := by
  by_cases htc : tc m <;>
    simp [convertArmMaxPoolV8LayoutCallback, htc, h]

theorem maxPoolV8Callback_rejected_of_rank (tc : MatchedNode → Bool)
    (p : MaxPoolV8Node)
    (h : p.out_shape.length < 4 ∨ 5 < p.out_shape.length) :
    convertArmMaxPoolV8LayoutCallback tc (.maxPoolV8Node p) = .rejected := by
  by_cases htc : tc (.maxPoolV8Node p) <;>
    simp [convertArmMaxPoolV8LayoutCallback, as_arm_maxpool_v8, htc, h]

theorem maxPoolV8Callback_rejected_of_axis (tc : MatchedNode → Bool)
    (p : MaxPoolV8Node)
    (h45 : ¬ (p.out_shape.length < 4 ∨ 5 < p.out_shape.length))
    (hax : axisGuard p.axis p.out_shape.length) :
    convertArmMaxPoolV8LayoutCallback tc (.maxPoolV8Node p) = .rejected := by
  unfold axisGuard at hax
  by_cases htc : tc (.maxPoolV8Node p) <;>
    simp [convertArmMaxPoolV8LayoutCallback, as_arm_maxpool_v8, htc, h45, hax]

theorem maxPoolV8Callback_result_shape (tc : MatchedNode → Bool)
    (m : MatchedNode) :
    convertArmMaxPoolV8LayoutCallback tc m = .rejected ∨
    ∃ p : MaxPoolV8Node, m = .maxPoolV8Node p ∧ tc m = false ∧
      (p.out_shape.length = 4 ∨ p.out_shape.length = 5) ∧
      ¬ axisGuard p.axis p.out_shape.length ∧
      convertArmMaxPoolV8LayoutCallback tc m =
        .rewritten (maxPoolV8Replacement p) := by
  by_cases htc : tc m
  · exact Or.inl (maxPoolV8Callback_rejected_of_tc tc m htc)
  · have htc' : tc m = false := by simpa using htc
    cases m with
    | maxPoolV8Node p =>
      by_cases h45 : p.out_shape.length < 4 ∨ 5 < p.out_shape.length
      · exact Or.inl (maxPoolV8Callback_rejected_of_rank tc p h45)
      · by_cases hax : axisGuard p.axis p.out_shape.length
        · exact Or.inl (maxPoolV8Callback_rejected_of_axis tc p h45 hax)
        · push_neg at h45
          have h4 : p.out_shape.length = 4 ∨ p.out_shape.length = 5 := by omega
          exact Or.inr ⟨p, rfl, htc', h4, hax,
            maxPoolV8Callback_rewrites tc p htc' h4 hax⟩
    | convNode c => exact Or.inl (maxPoolV8Callback_rejected_of_cast tc _ rfl)
    | maxPoolV1Node p => exact Or.inl (maxPoolV8Callback_rejected_of_cast tc _ rfl)
    | avgPoolNode p => exact Or.inl (maxPoolV8Callback_rejected_of_cast tc _ rfl)
    | otherNode i => exact Or.inl (maxPoolV8Callback_rejected_of_cast tc _ rfl)

/-- The replacement subgraph built by the AvgPool pass. -/
def avgPoolReplacement (p : AvgPoolNode) : List (Expr × String) :=
  [(Expr.transpose
      (Expr.armAvgPool
        (Expr.transpose p.input0 (perm_in p.out_shape.length))
        p.strides p.pads_begin p.pads_end p.kernel
        p.exclude_pad p.rounding_type p.auto_pad
        (transpose_output_shape p.out_shape p.out_shape.length))
      (perm_out p.out_shape.length),
    p.friendly_name)]

theorem avgPoolCallback_rewrites (tc : MatchedNode → Bool) (p : AvgPoolNode)
    (htc : tc (.avgPoolNode p) = false)
    (h45 : p.out_shape.length = 4 ∨ p.out_shape.length = 5) :
    convertArmAvgPoolLayoutCallback tc (.avgPoolNode p) =
      .rewritten (avgPoolReplacement p) := by
  rcases h45 with h | h <;>
    simp [convertArmAvgPoolLayoutCallback, as_arm_avgpool, htc, h,
      transpose_on_input, transpose_on_output, perm_in, perm_out,
      avgPoolReplacement]

theorem avgPoolCallback_rejected_of_tc (tc : MatchedNode → Bool)
    (m : MatchedNode) (h : tc m = true) :
    convertArmAvgPoolLayoutCallback tc m = .rejected := by
  simp [convertArmAvgPoolLayoutCallback, h]

theorem avgPoolCallback_rejected_of_cast (tc : MatchedNode → Bool)
    (m : MatchedNode) (h : as_arm_avgpool m = none) :
    convertArmAvgPoolLayoutCallback tc m = .rejected := by
  by_cases htc : tc m <;>
    simp [convertArmAvgPoolLayoutCallback, htc, h]

theorem avgPoolCallback_rejected_of_rank (tc : MatchedNode → Bool)
    (p : AvgPoolNode)
    (h : p.out_shape.length < 4 ∨ 5 < p.out_shape.length) :
    convertArmAvgPoolLayoutCallback tc (.avgPoolNode p) = .rejected := by
  by_cases htc : tc (.avgPoolNode p) <;>
    simp [convertArmAvgPoolLayoutCallback, as_arm_avgpool, htc, h]

theorem avgPoolCallback_result_shape (tc : MatchedNode → Bool)
    (m : MatchedNode) :
    convertArmAvgPoolLayoutCallback tc m = .rejected ∨
    ∃ p : AvgPoolNode, m = .avgPoolNode p ∧ tc m = false ∧
      (p.out_shape.length = 4 ∨ p.out_shape.length = 5) ∧
      convertArmAvgPoolLayoutCallback tc m =
        .rewritten (avgPoolReplacement p) := by
  by_cases htc : tc m
  · exact Or.inl (avgPoolCallback_rejected_of_tc tc m htc)
  · have htc' : tc m = false := by simpa using htc
    cases m with
    | avgPoolNode p =>
      by_cases h45 : p.out_shape.length < 4 ∨ 5 < p.out_shape.length
      · exact Or.inl (avgPoolCallback_rejected_of_rank tc p h45)
      · push_neg at h45
        have h4 : p.out_shape.length = 4 ∨ p.out_shape.length = 5 := by omega
        exact Or.inr ⟨p, rfl, htc', h4, avgPoolCallback_rewrites tc p htc' h4⟩
    | convNode c => exact Or.inl (avgPoolCallback_rejected_of_cast tc _ rfl)
    | maxPoolV1Node p => exact Or.inl (avgPoolCallback_rejected_of_cast tc _ rfl)
    | maxPoolV8Node p => exact Or.inl (avgPoolCallback_rejected_of_cast tc _ rfl)
    | otherNode i => exact Or.inl (avgPoolCallback_rejected_of_cast tc _ rfl)

/-- C1.  The output-side permutation inserted by every layout pass is the
inverse of the input-side one: composing `nchw_to_nhwc` with `nhwc_to_nchw`
(in either order) is the identity permutation on 4 elements, likewise
`ncdhw_to_ndhwc` with `ndhwc_to_ncdhw` on 5; hence for both supported ranks
the Transpose that `transpose_on_output` places on an output undoes the
Transpose that `transpose_on_input` places on an input, and the externally
observed shape is preserved. -/
theorem c1_layout_permutations_inverse :
    composePerm nchw_to_nhwc nhwc_to_nchw = List.range 4 ∧
    composePerm nhwc_to_nchw nchw_to_nhwc = List.range 4 ∧
    composePerm ncdhw_to_ndhwc ndhwc_to_ncdhw = List.range 5 ∧
    composePerm ndhwc_to_ncdhw ncdhw_to_ndhwc = List.range 5 ∧
    (∀ (e₀ e₁ : Expr) (rank : Nat), rank = 4 ∨ rank = 5 →
      ∃ p_in p_out : List Nat,
        transpose_on_input e₀ rank = .ok (.transpose e₀ p_in) ∧
        transpose_on_output e₁ rank = .ok (.transpose e₁ p_out) ∧
        composePerm p_in p_out = List.range rank ∧
        composePerm p_out p_in = List.range rank ∧
        (∀ s : List Dim, s.length = rank →
          applyPerm p_out (applyPerm p_in s) = s)) := by
  refine ⟨by decide, by decide, by decide, by decide, ?_⟩
  intro e₀ e₁ rank h
  rcases h with rfl | rfl
  · refine ⟨nchw_to_nhwc, nhwc_to_nchw, rfl, rfl, by decide, by decide, ?_⟩
    intro s hs
    match s, hs with
    | [a, b, c, d], _ => rfl
  · refine ⟨ncdhw_to_ndhwc, ndhwc_to_ncdhw, rfl, rfl, by decide, by decide, ?_⟩
    intro s hs
    match s, hs with
    | [a, b, c, d, e], _ => rfl

/-- Witness for C1 at rank 4 on a concrete shape. -/
theorem c1_layout_permutations_inverse_witness :
    (4 = 4 ∨ 4 = 5) ∧
    ∃ p_in p_out : List Nat,
      transpose_on_input (.value 0) 4 = .ok (.transpose (.value 0) p_in) ∧
      transpose_on_output (.value 1) 4 = .ok (.transpose (.value 1) p_out) ∧
      composePerm p_in p_out = List.range 4 ∧
      composePerm p_out p_in = List.range 4 ∧
      (∀ s : List Dim, s.length = 4 →
        applyPerm p_out (applyPerm p_in s) = s) :=
  ⟨Or.inl rfl,
   c1_layout_permutations_inverse.2.2.2.2 (.value 0) (.value 1) 4 (Or.inl rfl)⟩

/-- C3.  For rank 4 or 5, `transpose_output_shape` returns the shape whose
`i`-th dimension is the original `shape[perm[i]]` with `perm` equal to
`nchw_to_nhwc` (rank 4) or `ncdhw_to_ndhwc` (rank 5); the result is a
permutation of the original output shape. -/
theorem c3_transpose_output_shape_spec :
    ∀ (shape : List Dim) (rank : Nat), rank = shape.length →
      rank = 4 ∨ rank = 5 →
      (∀ i, i < rank →
        (transpose_output_shape shape rank).getD i none =
          shape.getD
            ((if rank == 4 then nchw_to_nhwc else ncdhw_to_ndhwc).getD i 0)
            none) ∧
      List.Perm (transpose_output_shape shape rank) shape := by
  intro shape rank hlen h45
  subst hlen
  rcases h45 with h4 | h5
  · match shape, h4 with
    | [a, b, c, d], _ =>
      constructor
      · intro i hi
        have hi4 : i < 4 := by simpa using hi
        interval_cases i <;> rfl
      · show List.Perm [a, c, d, b] [a, b, c, d]
        exact List.Perm.cons a (rotate_one_perm b [c, d])
  · match shape, h5 with
    | [a, b, c, d, e], _ =>
      constructor
      · intro i hi
        have hi5 : i < 5 := by simpa using hi
        interval_cases i <;> rfl
      · show List.Perm [a, c, d, e, b] [a, b, c, d, e]
        exact List.Perm.cons a (rotate_one_perm b [c, d, e])

/-- Witness for C3 on a concrete rank-4 shape. -/
theorem c3_transpose_output_shape_spec_witness :
    (4 = ([some 2, some 3, some 8, some 9] : List Dim).length) ∧
    (∀ i, i < 4 →
      (transpose_output_shape [some 2, some 3, some 8, some 9] 4).getD i none =
        ([some 2, some 3, some 8, some 9] : List Dim).getD
          ((if 4 == 4 then nchw_to_nhwc else ncdhw_to_ndhwc).getD i 0) none) ∧
    List.Perm (transpose_output_shape [some 2, some 3, some 8, some 9] 4)
      [some 2, some 3, some 8, some 9] :=
  ⟨rfl,
   c3_transpose_output_shape_spec [some 2, some 3, some 8, some 9] 4 rfl
     (Or.inl rfl)⟩

end pass
end ArmPlugin

namespace ArmPlugin
namespace pass

/-- C2, counterexample: a matched MaxPool-v8 node of output rank 4 that is
not excluded by `transformation_callback` is nevertheless NOT replaced: its
`axis` attribute is 2, so the axis guard makes the callback return false,
contradicting the claim that every such node is rewritten. -/
theorem c2_maxpool_v8_axis_two_not_rewritten_counterexample :
    convertArmMaxPoolV8LayoutCallback (fun _ => false)
      (.maxPoolV8Node
        ⟨.value 0, [1, 1], [1, 1], [0, 0], [0, 0], [2, 2],
         .floorMode, .explicitPad, .i64, 2,
         [some 1, some 3, some 8, some 8], "pool"⟩) = .rejected ∧
    ∀ outs : List (Expr × String),
      (CallbackResult.rejected : CallbackResult) ≠ .rewritten outs := by
  constructor
  · rfl
  · intro outs h
    cases h

/-- C2 (amended).  For every matched convolution or pooling node whose output
rank is 4 or 5, which is not excluded by `transformation_callback`, and —
for MaxPool-v8 only — whose `axis` attribute additionally passes the axis
guard, the pass replaces the node by: a Transpose to channel-last on the
activations input (and on the weights input for convolution), a newly built
operator of the same kind with the permuted output shape, and a Transpose
back to channel-first on each output (both outputs for MaxPool-v8, named
with the original friendly name suffixed ".0" and ".1"); the final
transpose(s) take the node's place and carry its friendly name. -/
theorem c2_layout_passes_rewrite_subgraph :
    (∀ (tc : MatchedNode → Bool) (c : ConvNode),
      tc (.convNode c) = false →
      (c.out_shape.length = 4 ∨ c.out_shape.length = 5) →
      convertArmConvolutionLayoutCallback tc (.convNode c) =
        .rewritten (convReplacement c)) ∧
    (∀ (tc : MatchedNode → Bool) (p : MaxPoolV1Node),
      tc (.maxPoolV1Node p) = false →
      (p.out_shape.length = 4 ∨ p.out_shape.length = 5) →
      convertArmMaxPoolV1LayoutCallback tc (.maxPoolV1Node p) =
        .rewritten (maxPoolV1Replacement p)) ∧
    (∀ (tc : MatchedNode → Bool) (p : MaxPoolV8Node),
      tc (.maxPoolV8Node p) = false →
      (p.out_shape.length = 4 ∨ p.out_shape.length = 5) →
      ¬ axisGuard p.axis p.out_shape.length →
      convertArmMaxPoolV8LayoutCallback tc (.maxPoolV8Node p) =
        .rewritten (maxPoolV8Replacement p)) ∧
    (∀ (tc : MatchedNode → Bool) (p : AvgPoolNode),
      tc (.avgPoolNode p) = false →
      (p.out_shape.length = 4 ∨ p.out_shape.length = 5) →
      convertArmAvgPoolLayoutCallback tc (.avgPoolNode p) =
        .rewritten (avgPoolReplacement p)) :=
  ⟨convCallback_rewrites, maxPoolV1Callback_rewrites,
   maxPoolV8Callback_rewrites, avgPoolCallback_rewrites⟩

/-- Witness for C2 on a concrete rank-4 convolution with bias. -/
theorem c2_layout_passes_rewrite_subgraph_witness :
    ((fun _ => false) (MatchedNode.convNode
        ⟨[.value 0, .value 1, .value 2], [1, 1], [0, 0], [0, 0], [1, 1],
         .explicitPad, [some 1, some 3, some 8, some 8], "conv"⟩) = false) ∧
    (([some 1, some 3, some 8, some 8] : List Dim).length = 4 ∨
     ([some 1, some 3, some 8, some 8] : List Dim).length = 5) ∧
    convertArmConvolutionLayoutCallback (fun _ => false)
      (.convNode
        ⟨[.value 0, .value 1, .value 2], [1, 1], [0, 0], [0, 0], [1, 1],
         .explicitPad, [some 1, some 3, some 8, some 8], "conv"⟩) =
      .rewritten (convReplacement
        ⟨[.value 0, .value 1, .value 2], [1, 1], [0, 0], [0, 0], [1, 1],
         .explicitPad, [some 1, some 3, some 8, some 8], "conv"⟩) :=
  ⟨rfl, Or.inl rfl,
   c2_layout_passes_rewrite_subgraph.1 (fun _ => false)
     ⟨[.value 0, .value 1, .value 2], [1, 1], [0, 0], [0, 0], [1, 1],
      .explicitPad, [some 1, some 3, some 8, some 8], "conv"⟩
     rfl (Or.inl rfl)⟩

/-- C6.  The MaxPool-v8 pass rewrites a matched node only when its `axis`
attribute is 0 or 1: the callback returns false for every axis greater
than 1 and for every negative axis in the valid range `[-rank, -1]` (for
rank 4 or 5 all of them satisfy `axis < 0 && axis > -rank - 1`); within the
valid attribute range the node is rewritten exactly when the axis is 0
or 1, so negative axis values equivalent to 0 or 1 are never rewritten. -/
theorem c6_maxpool_v8_axis_zero_or_one :
    ∀ (tc : MatchedNode → Bool) (p : MaxPoolV8Node),
      tc (.maxPoolV8Node p) = false →
      (p.out_shape.length = 4 ∨ p.out_shape.length = 5) →
      (1 < p.axis →
        convertArmMaxPoolV8LayoutCallback tc (.maxPoolV8Node p) = .rejected) ∧
      (-(p.out_shape.length : Int) ≤ p.axis → p.axis < 0 →
        convertArmMaxPoolV8LayoutCallback tc (.maxPoolV8Node p) = .rejected) ∧
      (-(p.out_shape.length : Int) ≤ p.axis →
        p.axis ≤ (p.out_shape.length : Int) - 1 →
        ((∃ outs, convertArmMaxPoolV8LayoutCallback tc (.maxPoolV8Node p) =
            .rewritten outs) ↔ (p.axis = 0 ∨ p.axis = 1))) := by
  intro tc p htc h45
  have hr4 : ¬ (p.out_shape.length < 4 ∨ 5 < p.out_shape.length) := by
    rcases h45 with h | h <;> omega
  refine ⟨?_, ?_, ?_⟩
  · intro hax
    exact maxPoolV8Callback_rejected_of_axis tc p hr4 (Or.inl hax)
  · intro hge hlt
    refine maxPoolV8Callback_rejected_of_axis tc p hr4 (Or.inr ⟨hlt, ?_⟩)
    omega
  · intro hge hle
    constructor
    · rintro ⟨outs, h⟩
      by_contra hax01
      push_neg at hax01
      have hax : axisGuard p.axis p.out_shape.length := by
        unfold axisGuard
        omega
      rw [maxPoolV8Callback_rejected_of_axis tc p hr4 hax] at h
      cases h
    · intro h01
      have hax : ¬ axisGuard p.axis p.out_shape.length := by
        unfold axisGuard
        omega
      exact ⟨_, maxPoolV8Callback_rewrites tc p htc h45 hax⟩

/-- Witness for C6 on a concrete rank-4 pool with axis 1. -/
theorem c6_maxpool_v8_axis_zero_or_one_witness :
    ((fun _ => false) (MatchedNode.maxPoolV8Node
        ⟨.value 0, [1, 1], [1, 1], [0, 0], [0, 0], [2, 2],
         .floorMode, .explicitPad, .i64, 1,
         [some 1, some 3, some 8, some 8], "pool"⟩) = false) ∧
    (([some 1, some 3, some 8, some 8] : List Dim).length = 4 ∨
     ([some 1, some 3, some 8, some 8] : List Dim).length = 5) ∧
    ((1 < (1 : Int) →
        convertArmMaxPoolV8LayoutCallback (fun _ => false)
          (.maxPoolV8Node
            ⟨.value 0, [1, 1], [1, 1], [0, 0], [0, 0], [2, 2],
             .floorMode, .explicitPad, .i64, 1,
             [some 1, some 3, some 8, some 8], "pool"⟩) = .rejected) ∧
     (-(([some 1, some 3, some 8, some 8] : List Dim).length : Int) ≤ 1 →
      (1 : Int) < 0 →
        convertArmMaxPoolV8LayoutCallback (fun _ => false)
          (.maxPoolV8Node
            ⟨.value 0, [1, 1], [1, 1], [0, 0], [0, 0], [2, 2],
             .floorMode, .explicitPad, .i64, 1,
             [some 1, some 3, some 8, some 8], "pool"⟩) = .rejected) ∧
     (-(([some 1, some 3, some 8, some 8] : List Dim).length : Int) ≤ 1 →
      (1 : Int) ≤ (([some 1, some 3, some 8, some 8] : List Dim).length : Int) - 1 →
        ((∃ outs, convertArmMaxPoolV8LayoutCallback (fun _ => false)
            (.maxPoolV8Node
              ⟨.value 0, [1, 1], [1, 1], [0, 0], [0, 0], [2, 2],
               .floorMode, .explicitPad, .i64, 1,
               [some 1, some 3, some 8, some 8], "pool"⟩) =
            .rewritten outs) ↔ ((1 : Int) = 0 ∨ (1 : Int) = 1)))) :=
  ⟨rfl, Or.inl rfl,
   c6_maxpool_v8_axis_zero_or_one (fun _ => false)
     ⟨.value 0, [1, 1], [1, 1], [0, 0], [0, 0], [2, 2],
      .floorMode, .explicitPad, .i64, 1,
      [some 1, some 3, some 8, some 8], "pool"⟩
     rfl (Or.inl rfl)⟩

/-- C7.  When a matched convolution has more than two inputs, the third
input (the bias) is connected unchanged to the replacement convolution —
wrapped in no Transpose — while the activations and weights inputs each
receive a channel-last Transpose. -/
theorem c7_conv_bias_passthrough :
    ∀ (tc : MatchedNode → Bool) (c : ConvNode),
      tc (.convNode c) = false →
      (c.out_shape.length = 4 ∨ c.out_shape.length = 5) →
      2 < c.inputs.length →
      convertArmConvolutionLayoutCallback tc (.convNode c) =
        .rewritten [(Expr.transpose
          (Expr.armConvolution
            (Expr.transpose (c.inputs.getD 0 nullOutput)
              (perm_in c.out_shape.length))
            (Expr.transpose (c.inputs.getD 1 nullOutput)
              (perm_in c.out_shape.length))
            (some (c.inputs.getD 2 nullOutput))
            c.strides c.pads_begin c.pads_end c.dilations c.auto_pad
            (transpose_output_shape c.out_shape c.out_shape.length))
          (perm_out c.out_shape.length),
        c.friendly_name)] := by
  intro tc c htc h45 hb
  rw [convCallback_rewrites tc c htc h45]
  simp [convReplacement, hb]

/-- Witness for C7 on a concrete rank-4 convolution with a bias input. -/
theorem c7_conv_bias_passthrough_witness :
    ((fun _ => false) (MatchedNode.convNode
        ⟨[.value 3, .value 4, .value 5], [1, 1], [0, 0], [0, 0], [1, 1],
         .sameUpper, [some 1, some 4, some 6, some 6], "convb"⟩) = false) ∧
    (([some 1, some 4, some 6, some 6] : List Dim).length = 4 ∨
     ([some 1, some 4, some 6, some 6] : List Dim).length = 5) ∧
    2 < ([Expr.value 3, .value 4, .value 5] : List Expr).length ∧
    convertArmConvolutionLayoutCallback (fun _ => false)
      (.convNode
        ⟨[.value 3, .value 4, .value 5], [1, 1], [0, 0], [0, 0], [1, 1],
         .sameUpper, [some 1, some 4, some 6, some 6], "convb"⟩) =
      .rewritten [(Expr.transpose
        (Expr.armConvolution
          (Expr.transpose (.value 3) (perm_in 4))
          (Expr.transpose (.value 4) (perm_in 4))
          (some (.value 5))
          [1, 1] [0, 0] [0, 0] [1, 1] .sameUpper
          (transpose_output_shape [some 1, some 4, some 6, some 6] 4))
        (perm_out 4),
      "convb")] :=
  ⟨rfl, Or.inl rfl, by decide,
   c7_conv_bias_passthrough (fun _ => false)
     ⟨[.value 3, .value 4, .value 5], [1, 1], [0, 0], [0, 0], [1, 1],
      .sameUpper, [some 1, some 4, some 6, some 6], "convb"⟩
     rfl (Or.inl rfl) (by decide)⟩


/-- C4.  Whenever a pass rewrites a node, every non-layout attribute of the
original operator appears unchanged on the replacement operator (strides,
pads_begin, pads_end, auto_pad for all passes; dilations for convolution and
MaxPool-v8; kernel and rounding type for the pooling passes; exclude_pad for
AvgPool; index element type and axis for MaxPool-v8), and the friendly names
come from the original node; only the inputs and the declared output shape
are existentially fresh. -/
theorem c4_attributes_preserved :
    (∀ (tc : MatchedNode → Bool) (c : ConvNode) (outs : List (Expr × String)),
      convertArmConvolutionLayoutCallback tc (.convNode c) = .rewritten outs →
      ∃ (act w : Expr) (b : Option Expr) (oshape : List Dim) (po : List Nat),
        outs = [(Expr.transpose
          (Expr.armConvolution act w b c.strides c.pads_begin c.pads_end
            c.dilations c.auto_pad oshape) po, c.friendly_name)]) ∧
    (∀ (tc : MatchedNode → Bool) (p : MaxPoolV1Node)
        (outs : List (Expr × String)),
      convertArmMaxPoolV1LayoutCallback tc (.maxPoolV1Node p) =
        .rewritten outs →
      ∃ (inp : Expr) (oshape : List Dim) (po : List Nat),
        outs = [(Expr.transpose
          (Expr.armMaxPoolV1 inp p.strides p.pads_begin p.pads_end p.kernel
            p.rounding_type p.auto_pad oshape) po, p.friendly_name)]) ∧
    (∀ (tc : MatchedNode → Bool) (p : MaxPoolV8Node)
        (outs : List (Expr × String)),
      convertArmMaxPoolV8LayoutCallback tc (.maxPoolV8Node p) =
        .rewritten outs →
      ∃ (inp : Expr) (oshape : List Dim) (po : List Nat),
        outs = [(Expr.transpose
            (Expr.armMaxPoolV8Out inp p.strides p.dilations p.pads_begin
              p.pads_end p.kernel p.rounding_type p.auto_pad
              p.index_element_type p.axis oshape 0) po,
            p.friendly_name ++ ".0"),
          (Expr.transpose
            (Expr.armMaxPoolV8Out inp p.strides p.dilations p.pads_begin
              p.pads_end p.kernel p.rounding_type p.auto_pad
              p.index_element_type p.axis oshape 1) po,
            p.friendly_name ++ ".1")]) ∧
    (∀ (tc : MatchedNode → Bool) (p : AvgPoolNode)
        (outs : List (Expr × String)),
      convertArmAvgPoolLayoutCallback tc (.avgPoolNode p) = .rewritten outs →
      ∃ (inp : Expr) (oshape : List Dim) (po : List Nat),
        outs = [(Expr.transpose
          (Expr.armAvgPool inp p.strides p.pads_begin p.pads_end p.kernel
            p.exclude_pad p.rounding_type p.auto_pad oshape) po,
          p.friendly_name)]) := by
  refine ⟨?_, ?_, ?_, ?_⟩
  · intro tc c outs h
    rcases convCallback_result_shape tc (.convNode c) with hr | ⟨c', hm, _, _, hrw⟩
    · rw [hr] at h
      cases h
    · cases hm
      rw [hrw] at h
      injection h with h2
      subst h2
      exact ⟨_, _, _, _, _, rfl⟩
  · intro tc p outs h
    rcases maxPoolV1Callback_result_shape tc (.maxPoolV1Node p) with
      hr | ⟨p', hm, _, _, hrw⟩
    · rw [hr] at h
      cases h
    · cases hm
      rw [hrw] at h
      injection h with h2
      subst h2
      exact ⟨_, _, _, rfl⟩
  · intro tc p outs h
    rcases maxPoolV8Callback_result_shape tc (.maxPoolV8Node p) with
      hr | ⟨p', hm, _, _, _, hrw⟩
    · rw [hr] at h
      cases h
    · cases hm
      rw [hrw] at h
      injection h with h2
      subst h2
      exact ⟨_, _, _, rfl⟩
  · intro tc p outs h
    rcases avgPoolCallback_result_shape tc (.avgPoolNode p) with
      hr | ⟨p', hm, _, _, hrw⟩
    · rw [hr] at h
      cases h
    · cases hm
      rw [hrw] at h
      injection h with h2
      subst h2
      exact ⟨_, _, _, rfl⟩

/-- Witness for C4 on a concrete rank-4 AvgPool that is rewritten. -/
theorem c4_attributes_preserved_witness :
    convertArmAvgPoolLayoutCallback (fun _ => false)
      (.avgPoolNode
        ⟨.value 7, [2, 2], [1, 1], [1, 1], [3, 3], true, .ceilMode,
         .validPad, [some 1, some 2, some 5, some 5], "avg"⟩) =
      .rewritten (avgPoolReplacement
        ⟨.value 7, [2, 2], [1, 1], [1, 1], [3, 3], true, .ceilMode,
         .validPad, [some 1, some 2, some 5, some 5], "avg"⟩) ∧
    ∃ (inp : Expr) (oshape : List Dim) (po : List Nat),
      avgPoolReplacement
        ⟨.value 7, [2, 2], [1, 1], [1, 1], [3, 3], true, .ceilMode,
         .validPad, [some 1, some 2, some 5, some 5], "avg"⟩ =
        [(Expr.transpose
          (Expr.armAvgPool inp [2, 2] [1, 1] [1, 1] [3, 3]
            true .ceilMode .validPad oshape) po,
          "avg")] :=
  ⟨rfl,
   c4_attributes_preserved.2.2.2 (fun _ => false)
     ⟨.value 7, [2, 2], [1, 1], [1, 1], [3, 3], true, .ceilMode,
      .validPad, [some 1, some 2, some 5, some 5], "avg"⟩
     _ rfl⟩

/-- C5.  Each of the four pass callbacks is atomic on failure: it returns
false (leaving the graph unmodified) whenever `transformation_callback`
excludes the node, the dynamic cast to the expected operator type fails, or
the output rank is below 4 or above 5; and no callback can reach the
"ConvertLayout: unsupported rank" throw of `transpose_on_input` /
`transpose_on_output`, because the rank is checked first. -/
theorem c5_callbacks_atomic_no_throw :
    (∀ (tc : MatchedNode → Bool) (m : MatchedNode), tc m = true →
      convertArmConvolutionLayoutCallback tc m = .rejected ∧
      convertArmMaxPoolV1LayoutCallback tc m = .rejected ∧
      convertArmMaxPoolV8LayoutCallback tc m = .rejected ∧
      convertArmAvgPoolLayoutCallback tc m = .rejected) ∧
    (∀ (tc : MatchedNode → Bool) (m : MatchedNode),
      as_arm_convolution m = none →
      convertArmConvolutionLayoutCallback tc m = .rejected) ∧
    (∀ (tc : MatchedNode → Bool) (m : MatchedNode),
      as_arm_maxpool_v1 m = none →
      convertArmMaxPoolV1LayoutCallback tc m = .rejected) ∧
    (∀ (tc : MatchedNode → Bool) (m : MatchedNode),
      as_arm_maxpool_v8 m = none →
      convertArmMaxPoolV8LayoutCallback tc m = .rejected) ∧
    (∀ (tc : MatchedNode → Bool) (m : MatchedNode),
      as_arm_avgpool m = none →
      convertArmAvgPoolLayoutCallback tc m = .rejected) ∧
    (∀ (tc : MatchedNode → Bool) (c : ConvNode),
      (c.out_shape.length < 4 ∨ 5 < c.out_shape.length) →
      convertArmConvolutionLayoutCallback tc (.convNode c) = .rejected) ∧
    (∀ (tc : MatchedNode → Bool) (p : MaxPoolV1Node),
      (p.out_shape.length < 4 ∨ 5 < p.out_shape.length) →
      convertArmMaxPoolV1LayoutCallback tc (.maxPoolV1Node p) = .rejected) ∧
    (∀ (tc : MatchedNode → Bool) (p : MaxPoolV8Node),
      (p.out_shape.length < 4 ∨ 5 < p.out_shape.length) →
      convertArmMaxPoolV8LayoutCallback tc (.maxPoolV8Node p) = .rejected) ∧
    (∀ (tc : MatchedNode → Bool) (p : AvgPoolNode),
      (p.out_shape.length < 4 ∨ 5 < p.out_shape.length) →
      convertArmAvgPoolLayoutCallback tc (.avgPoolNode p) = .rejected) ∧
    (∀ (tc : MatchedNode → Bool) (m : MatchedNode) (msg : String),
      convertArmConvolutionLayoutCallback tc m ≠ .threw msg ∧
      convertArmMaxPoolV1LayoutCallback tc m ≠ .threw msg ∧
      convertArmMaxPoolV8LayoutCallback tc m ≠ .threw msg ∧
      convertArmAvgPoolLayoutCallback tc m ≠ .threw msg) := by
  refine ⟨?_, convCallback_rejected_of_cast, maxPoolV1Callback_rejected_of_cast,
    maxPoolV8Callback_rejected_of_cast, avgPoolCallback_rejected_of_cast,
    convCallback_rejected_of_rank, maxPoolV1Callback_rejected_of_rank,
    maxPoolV8Callback_rejected_of_rank, avgPoolCallback_rejected_of_rank, ?_⟩
  · intro tc m htc
    exact ⟨convCallback_rejected_of_tc tc m htc,
      maxPoolV1Callback_rejected_of_tc tc m htc,
      maxPoolV8Callback_rejected_of_tc tc m htc,
      avgPoolCallback_rejected_of_tc tc m htc⟩
  · intro tc m msg
    refine ⟨?_, ?_, ?_, ?_⟩
    · rcases convCallback_result_shape tc m with hr | ⟨c, _, _, _, hrw⟩ <;>
        intro h
      · rw [hr] at h
        cases h
      · rw [hrw] at h
        cases h
    · rcases maxPoolV1Callback_result_shape tc m with hr | ⟨p, _, _, _, hrw⟩ <;>
        intro h
      · rw [hr] at h
        cases h
      · rw [hrw] at h
        cases h
    · rcases maxPoolV8Callback_result_shape tc m with
        hr | ⟨p, _, _, _, _, hrw⟩ <;> intro h
      · rw [hr] at h
        cases h
      · rw [hrw] at h
        cases h
    · rcases avgPoolCallback_result_shape tc m with hr | ⟨p, _, _, _, hrw⟩ <;>
        intro h
      · rw [hr] at h
        cases h
      · rw [hrw] at h
        cases h

/-- Witness for C5: an excluded node is rejected by all four passes, and a
rank-3 convolution node is rejected. -/
theorem c5_callbacks_atomic_no_throw_witness :
    ((fun _ => true) (MatchedNode.otherNode 0) = true) ∧
    (convertArmConvolutionLayoutCallback (fun _ => true) (.otherNode 0) =
        .rejected ∧
      convertArmMaxPoolV1LayoutCallback (fun _ => true) (.otherNode 0) =
        .rejected ∧
      convertArmMaxPoolV8LayoutCallback (fun _ => true) (.otherNode 0) =
        .rejected ∧
      convertArmAvgPoolLayoutCallback (fun _ => true) (.otherNode 0) =
        .rejected) ∧
    (([some 1, some 2, some 3] : List Dim).length < 4 ∨
      5 < ([some 1, some 2, some 3] : List Dim).length) ∧
    convertArmConvolutionLayoutCallback (fun _ => false)
      (.convNode ⟨[.value 0, .value 1], [1], [0], [0], [1], .explicitPad,
        [some 1, some 2, some 3], "c3"⟩) = .rejected :=
  ⟨rfl,
   c5_callbacks_atomic_no_throw.1 (fun _ => true) (.otherNode 0) rfl,
   Or.inl (by decide),
   c5_callbacks_atomic_no_throw.2.2.2.2.2.1 (fun _ => false)
     ⟨[.value 0, .value 1], [1], [0], [0], [1], .explicitPad,
      [some 1, some 2, some 3], "c3"⟩
     (Or.inl (by decide))⟩
end pass
end ArmPlugin

namespace CUDAPlugin
namespace kernel

theorem flattenIdx_unflattenIdx (shape : List Nat) (i : Nat)
    (h : i < shape.prod) :
    flattenIdx shape (unflattenIdx shape i) = i := by
  induction shape generalizing i with
  | nil =>
    simp [List.prod] at h
    simp [flattenIdx, unflattenIdx, h]
  | cons d ds ih =>
    have hP : 0 < ds.prod := by
      rcases Nat.eq_zero_or_pos ds.prod with h0 | h0
      · rw [List.prod_cons, h0, Nat.mul_zero] at h
        omega
      · exact h0
    simp only [unflattenIdx, flattenIdx]
    rw [ih _ (Nat.mod_lt i hP), Nat.mul_comm]
    exact Nat.div_add_mod i ds.prod

theorem zipWith_clamp_unflattenIdx (shape : List Nat) (i : Nat)
    (h : i < shape.prod) :
    List.zipWith (fun d c => if d = 1 then 0 else c) shape
        (unflattenIdx shape i) =
      unflattenIdx shape i := by
  induction shape generalizing i with
  | nil => simp [unflattenIdx]
  | cons d ds ih =>
    have hP : 0 < ds.prod := by
      rcases Nat.eq_zero_or_pos ds.prod with h0 | h0
      · rw [List.prod_cons, h0, Nat.mul_zero] at h
        omega
      · exact h0
    simp only [unflattenIdx, List.zipWith_cons_cons, List.cons.injEq]
    refine ⟨?_, ih _ (Nat.mod_lt i hP)⟩
    by_cases hd : d = 1
    · subst hd
      rw [List.prod_cons, Nat.one_mul] at h
      rw [if_pos rfl, Nat.div_eq_of_lt h]
    · rw [if_neg hd]

theorem numpyBroadcastMapper_self (shape : List Nat) (i : Nat)
    (h : i < shape.prod) :
    numpyBroadcastMapper shape shape i = i := by
  unfold numpyBroadcastMapper
  rw [zipWith_clamp_unflattenIdx shape i h, flattenIdx_unflattenIdx shape i h]

theorem numpyBroadcastMapper_ones (out_shape : List Nat) (i : Nat) :
    numpyBroadcastMapper out_shape (out_shape.map fun _ => 1) i = 0 := by
  induction out_shape generalizing i with
  | nil => rfl
  | cons d ds ih =>
    show flattenIdx ((d :: ds).map fun _ => 1)
      (List.zipWith (fun d c => if d = 1 then 0 else c)
        ((d :: ds).map fun _ => 1) (unflattenIdx (d :: ds) i)) = 0
    simp only [List.map_cons, unflattenIdx, List.zipWith_cons_cons, flattenIdx]
    simp only [if_true]
    rw [Nat.zero_mul, Nat.zero_add]
    have := ih (i % ds.prod)
    unfold numpyBroadcastMapper at this
    exact this

theorem range_map_getD (n : Nat) (f : Nat → Int) (i : Nat) (h : i < n) :
    ((List.range n).map f).getD i 0 = f i := by
  rw [List.getD_eq_getElem?_getD, List.getElem?_map, List.getElem?_range h]
  rfl

/-- C8.  For every pair of input tensors and every output element index,
`Mod::operator()` yields the element-wise modulo of the two inputs, each
operand selected through its `NumpyBroadcastMapper`; the mapper applies
numpy broadcasting semantics: with identical input and output shapes it is
the identity on valid flat indices, and an input dimension of extent 1 is
clamped to coordinate 0 (so a fully broadcast input contributes its single
element everywhere). -/
theorem c8_mod_elementwise_broadcast :
    (∀ (k : Mod) (in0 in1 : Nat → Int) (m0 m1 : Nat → Nat) (i : Nat),
      i < k.out_num_elements →
      (k.call in0 m0 in1 m1).getD i 0 =
        Int.tmod (in0 (m0 i)) (in1 (m1 i))) ∧
    (∀ (shape : List Nat) (i : Nat), i < shape.prod →
      numpyBroadcastMapper shape shape i = i) ∧
    (∀ (out_shape : List Nat) (i : Nat),
      numpyBroadcastMapper out_shape (out_shape.map fun _ => 1) i = 0) := by
  refine ⟨?_, numpyBroadcastMapper_self, numpyBroadcastMapper_ones⟩
  intro k in0 in1 m0 m1 i hi
  unfold Mod.call elementwiseBinary
  rw [range_map_getD _ _ _ hi]
  rfl

/-- Witness for C8 on a two-element output with identity mappers and a
concrete identity-mapper instance on shape `[2, 2]`. -/
theorem c8_mod_elementwise_broadcast_witness :
    (1 < (Mod.mk 2).out_num_elements) ∧
    ((Mod.mk 2).call (fun _ => 7) (fun j => j) (fun _ => 3) (fun j => j)).getD
        1 0 = Int.tmod 7 3 ∧
    (3 < List.prod [2, 2] ∧ numpyBroadcastMapper [2, 2] [2, 2] 3 = 3) :=
  ⟨by decide,
   c8_mod_elementwise_broadcast.1 (Mod.mk 2) (fun _ => 7) (fun _ => 3)
     (fun j => j) (fun j => j) 1 (by decide),
   by decide,
   c8_mod_elementwise_broadcast.2.1 [2, 2] 3 (by decide)⟩

/-- C9.  `Mod` is behaviourally equal to the generic element-wise binary
dispatcher instantiated with the modulo operation, and that instantiation
coincides with the direct element-wise-modulo specification: `Mod` adds no
behaviour beyond the generic broadcasting dispatch specialised to
`ModOpImpl`. -/
theorem c9_mod_refines_generic_dispatch :
    ∀ (k : Mod) (in0 in1 : Nat → Int) (m0 m1 : Nat → Nat),
      k.call in0 m0 in1 m1 =
        elementwiseBinary modOpImpl k.out_num_elements in0 m0 in1 m1 ∧
      k.call in0 m0 in1 m1 =
        modSpec k.out_num_elements in0 m0 in1 m1 := by
  intro k in0 in1 m0 m1
  exact ⟨rfl, rfl⟩

end kernel
end CUDAPlugin
